import Mathlib

/-
Verification of the genericalc symbolic-expression engine (src/src/main.rs).

The Rust source represents expressions with type-level generic structs
(`Const`, `Symbol`, `DAdd<L,R>`, `DMul<L,R>`) sharing the `Eval`/`Derive`
traits and `Display`. The spec itself notes (§9) that a single closed
tagged-variant type with recursive ownership reproduces all observable
behavior, so the shallow embedding below uses one inductive `Expr` whose
constructors mirror the four Rust structs, and one function per trait
method, each translated clause-by-clause from the corresponding `impl`.

Numeric values: the Rust code uses `f64`. Every numeric value that occurs
in the program and in the properties below (constants 0.0 and 1.0, the
binding 2.0, and sums/products of such small integers) is exactly
representable, and `f64` addition and multiplication are exact on them,
so we model values as `ℚ`; on these inputs the arithmetic coincides with
the source's `f64` arithmetic.

Failure: `Symbol::eval` panics (`panic!("Couldn't find symbol {:?}", self)`)
when the symbol is absent from `inputs.symbol_map`. We model evaluation as
`Except String ℚ`, the error value carrying the missing symbol's name, as
the panic message does; all other methods are total, which the Lean types
record directly.
-/

namespace GenCalc

/-- The expression tree. Constructors correspond one-to-one to the Rust
structs `Const { val }`, `Symbol { name }`, `DAdd { lhs, rhs }` and
`DMul { lhs, rhs }`; the spec's names for the latter two are Sum and
Product. -/
inductive Expr : Type
  | const (val : ℚ)
  | symbol (name : String)
  | dadd (lhs rhs : Expr)
  | dmul (lhs rhs : Expr)
  deriving DecidableEq

/-- `Inputs` from the source: a binding environment. The Rust field is a
`HashMap<Symbol, f64>`; keys are unique, so a partial function from names
to values is the same mapping. -/
structure Inputs where
  symbol_map : String → Option ℚ

/-- `Eval::eval`, per variant from the four `impl Eval` blocks:
`Const` returns its stored `val`; `Symbol` looks itself up in
`inputs.symbol_map` and panics naming the symbol when absent (modelled as
`Except.error name`); `DAdd`/`DMul` evaluate `lhs` then `rhs` (a panic in
`lhs` surfaces first, as in Rust's left-to-right evaluation of
`self.lhs.eval(inputs) + self.rhs.eval(inputs)`) and combine the results
with `+` / `*`. -/
def Expr.eval : Expr → Inputs → Except String ℚ
  | .const v, _ => .ok v
  | .symbol n, inputs =>
      match inputs.symbol_map n with
      | some res => .ok res
      | none => .error n
  | .dadd l r, inputs =>
      match l.eval inputs, r.eval inputs with
      | .ok a, .ok b => .ok (a + b)
      | .error e, _ => .error e
      | _, .error e => .error e
  | .dmul l r, inputs =>
      match l.eval inputs, r.eval inputs with
      | .ok a, .ok b => .ok (a * b)
      | .error e, _ => .error e
      | _, .error e => .error e

/-- `Derive::deriv`, per variant from the four `impl Derive` blocks:
`Const` yields `Const { val: 0.0 }`; `Symbol` yields
`Const { val: if vs == self { 1.0 } else { 0.0 } }` (symbol equality is
the derived equality on the single `name` field, i.e. name equality);
`DAdd` yields `DAdd { lhs.deriv, rhs.deriv }`; `DMul` yields
`DAdd { DMul { lhs.clone(), d_r }, DMul { d_l, rhs.clone() } }` — the
clones are structural copies, so here plain reuse of the operand values. -/
def Expr.deriv : Expr → String → Expr
  | .const _, _ => .const 0
  | .symbol n, vs => .const (if vs = n then 1 else 0)
  | .dadd l r, vs => .dadd (l.deriv vs) (r.deriv vs)
  | .dmul l r, vs => .dadd (.dmul l (r.deriv vs)) (.dmul (l.deriv vs) r)

/-- Rendering of a constant's value: `impl Display for Const` writes the
`f64` with `write!("{}", self.val)`. Rust's `f64` `Display` prints an
integral double with no decimal point ("1", "0", "-3") and a non-integral
one in decimal form. Every constant this program builds (0.0, 1.0) is
integral, so the integral branch models the source exactly; the other
branch renders the reduced fraction and is exercised by no claim. -/
def fmtVal (q : ℚ) : String :=
  if q.den = 1 then toString q.num
  else toString q.num ++ "/" ++ toString q.den

/-- The `Display` impls, per variant: `Const` writes its value, `Symbol`
writes its `name`, `DAdd` writes `"({} + {})"` of its operands, `DMul`
writes `"({} * {})"` of its operands. -/
def Expr.render : Expr → String
  | .const v => fmtVal v
  | .symbol n => n
  | .dadd l r => "(" ++ l.render ++ " + " ++ r.render ++ ")"
  | .dmul l r => "(" ++ l.render ++ " * " ++ r.render ++ ")"

/-- The demonstration expression `xp1 = DAdd { lhs: x, rhs: Const 1.0 }`
built in `main`. -/
def xp1 : Expr := .dadd (.symbol "x") (.const 1)

/-- The demonstration expression `func = DMul { lhs: xp1.clone(), rhs: xp1 }`
built in `main`. -/
def func : Expr := .dmul xp1 xp1

/-- `ddx = func.deriv(&x)` from `main`. -/
def ddx : Expr := func.deriv "x"

/-- The binding environment of `main`: `HashMap::from([(x, 2.0)])`. -/
def demoInputs : Inputs := ⟨fun n => if n = "x" then some 2 else none⟩

/-- The names of the symbols occurring in an expression, left to right. -/
def Expr.freeSyms : Expr → List String
  | .const _ => []
  | .symbol n => [n]
  | .dadd l r => l.freeSyms ++ r.freeSyms
  | .dmul l r => l.freeSyms ++ r.freeSyms

/-- Helper: whenever evaluation fails, the reported name is a symbol that
the environment does not bind. -/
theorem eval_error_unbound (e : Expr) (E : Inputs) (t : String)
    (h : e.eval E = .error t) : E.symbol_map t = none := by
  induction e with
  | const v => simp [Expr.eval] at h
  | symbol n =>
    unfold Expr.eval at h
    cases hn : E.symbol_map n with
    | some res => rw [hn] at h; exact absurd h (by simp)
    | none => rw [hn] at h; injection h with h; exact h ▸ hn
  | dadd l r ihl ihr =>
    unfold Expr.eval at h
    cases hl : l.eval E with
    | error e1 =>
      cases hr : r.eval E with
      | error e2 => rw [hl, hr] at h; simp at h; exact ihl (h ▸ hl)
      | ok b => rw [hl, hr] at h; simp at h; exact ihl (h ▸ hl)
    | ok a =>
      cases hr : r.eval E with
      | error e2 => rw [hl, hr] at h; simp at h; exact ihr (h ▸ hr)
      | ok b => rw [hl, hr] at h; simp at h
  | dmul l r ihl ihr =>
    unfold Expr.eval at h
    cases hl : l.eval E with
    | error e1 =>
      cases hr : r.eval E with
      | error e2 => rw [hl, hr] at h; simp at h; exact ihl (h ▸ hl)
      | ok b => rw [hl, hr] at h; simp at h; exact ihl (h ▸ hl)
    | ok a =>
      cases hr : r.eval E with
      | error e2 => rw [hl, hr] at h; simp at h; exact ihr (h ▸ hr)
      | ok b => rw [hl, hr] at h; simp at h

/-- Helper: an unbound symbol occurring anywhere in an expression makes the
whole evaluation fail, and the failure names an unbound symbol. -/
theorem unbound_eval_error (e : Expr) (E : Inputs) (s : String)
    (hs : s ∈ e.freeSyms) (hnone : E.symbol_map s = none) :
    ∃ t, e.eval E = .error t ∧ E.symbol_map t = none := by
  induction e with
  | const v => simp [Expr.freeSyms] at hs
  | symbol n =>
    simp [Expr.freeSyms] at hs
    subst hs
    exact ⟨s, by simp [Expr.eval, hnone], hnone⟩
  | dadd l r ihl ihr =>
    rcases List.mem_append.1 hs with h | h
    · obtain ⟨t, ht, htn⟩ := ihl h
      exact ⟨t, by cases hr : r.eval E <;> simp [Expr.eval, ht, hr], htn⟩
    · cases hl : l.eval E with
      | error t1 =>
        exact ⟨t1, by cases hr : r.eval E <;> simp [Expr.eval, hl, hr],
          eval_error_unbound l E t1 hl⟩
      | ok a =>
        obtain ⟨t, ht, htn⟩ := ihr h
        exact ⟨t, by simp [Expr.eval, hl, ht], htn⟩
  | dmul l r ihl ihr =>
    rcases List.mem_append.1 hs with h | h
    · obtain ⟨t, ht, htn⟩ := ihl h
      exact ⟨t, by cases hr : r.eval E <;> simp [Expr.eval, ht, hr], htn⟩
    · cases hl : l.eval E with
      | error t1 =>
        exact ⟨t1, by cases hr : r.eval E <;> simp [Expr.eval, hl, hr],
          eval_error_unbound l E t1 hl⟩
      | ok a =>
        obtain ⟨t, ht, htn⟩ := ihr h
        exact ⟨t, by simp [Expr.eval, hl, ht], htn⟩

/-- Observable results of using a tree after differentiating it:
compute the derivative first, then render and evaluate the original. -/
def observeAfterDeriv (t : Expr) (v : String) (E : Inputs) :
    Expr × String × Except String ℚ :=
  let d := t.deriv v
  (d, t.render, t.eval E)

/-- C1: for any expression trees A and B, target variable v and environment E
under which A, B and their derivatives all evaluate without failure, the
derivative of Product(A,B) with respect to v evaluates under E to
evaluate(A,E) * evaluate(differentiate(B,v),E)
+ evaluate(differentiate(A,v),E) * evaluate(B,E). -/
theorem product_rule (a b : Expr) (v : String) (E : Inputs) (va vb da db : ℚ)
    (ha : a.eval E = .ok va) (hb : b.eval E = .ok vb)
    (hda : (a.deriv v).eval E = .ok da) (hdb : (b.deriv v).eval E = .ok db) :
    ((Expr.dmul a b).deriv v).eval E = .ok (va * db + da * vb) := by
  simp [Expr.deriv, Expr.eval, ha, hb, hda, hdb]

/-- Witness for C1 at A = Variable "x", B = Constant 1, v = "x", E = (x ↦ 2). -/
theorem product_rule_witness :
    ((Expr.dmul (.symbol "x") (.const 1)).deriv "x").eval demoInputs
      = .ok (2 * 0 + 1 * 1) :=
  product_rule (.symbol "x") (.const 1) "x" demoInputs 2 1 1 0
    (by norm_num [Expr.eval, demoInputs]) (by norm_num [Expr.eval])
    (by norm_num [Expr.deriv, Expr.eval]) (by norm_num [Expr.deriv, Expr.eval])

/-- C2 counterexample: in the fixed demonstration scenario, the derivative
does NOT render as the spec's string "(((x + 1) * 1) + (1 * (x + 1)))",
because the derivative of (x + 1) is the unsimplified tree
Sum(Constant 1, Constant 0), which renders as "(1 + 0)", not "1". -/
theorem demo_render_claim_false :
    ddx.render ≠ "(((x + 1) * 1) + (1 * (x + 1)))" := by decide

/-- C2 amended: in the fixed demonstration scenario, rendering
differentiate(f, x) produces exactly
"(((x + 1) * (1 + 0)) + ((1 + 0) * (x + 1)))". -/
theorem demo_render_derivative :
    ddx.render = "(((x + 1) * (1 + 0)) + ((1 + 0) * (x + 1)))" := rfl

/-- C3: for any expression trees A and B, target variable v and environment E
under which the derivatives of A and B evaluate without failure, the
derivative of Sum(A,B) with respect to v evaluates under E to
evaluate(differentiate(A,v),E) + evaluate(differentiate(B,v),E). -/
theorem sum_rule (a b : Expr) (v : String) (E : Inputs) (da db : ℚ)
    (hda : (a.deriv v).eval E = .ok da) (hdb : (b.deriv v).eval E = .ok db) :
    ((Expr.dadd a b).deriv v).eval E = .ok (da + db) := by
  simp [Expr.deriv, Expr.eval, hda, hdb]

/-- Witness for C3 at A = Variable "x", B = Constant 1, v = "x". -/
theorem sum_rule_witness :
    ((Expr.dadd (.symbol "x") (.const 1)).deriv "x").eval demoInputs
      = .ok (1 + 0) :=
  sum_rule (.symbol "x") (.const 1) "x" demoInputs 1 0
    (by norm_num [Expr.deriv, Expr.eval]) (by norm_num [Expr.deriv, Expr.eval])

/-- C4: in the demonstration scenario with x bound to 2, f evaluates to 9 and
differentiate(f, x) evaluates to 6. -/
theorem demo_values :
    func.eval demoInputs = .ok 9 ∧ ddx.eval demoInputs = .ok 6 :=
  ⟨by norm_num [func, xp1, Expr.eval, demoInputs],
   by norm_num [ddx, func, xp1, Expr.deriv, Expr.eval, demoInputs]⟩

/-- C5: evaluating a Variable absent from the binding environment fails with
an error naming the missing variable and yields no numeric result; and this
is the only failure condition — whenever evaluation fails, the reported name
is one the environment does not bind. (Construction, differentiation and
rendering are total by the types of `Expr.deriv` and `Expr.render`, which
return plain values, never an error.) -/
theorem unbound_variable_only_failure :
    (∀ (n : String) (E : Inputs), E.symbol_map n = none →
        (Expr.symbol n).eval E = .error n)
    ∧ (∀ (e : Expr) (E : Inputs) (t : String), e.eval E = .error t →
        E.symbol_map t = none) := by
  constructor
  · intro n E h
    simp [Expr.eval, h]
  · exact fun e E t h => eval_error_unbound e E t h

/-- Witness for C5 at Variable "z" under the empty environment. -/
theorem unbound_variable_only_failure_witness :
    (Expr.symbol "z").eval ⟨fun _ => none⟩ = .error "z" :=
  unbound_variable_only_failure.1 "z" ⟨fun _ => none⟩ rfl

/-- C6: differentiating a Variable with respect to a target yields Constant 1
when the names are equal and Constant 0 otherwise (equality by name only),
and that constant evaluates to 1 (respectively 0) under every environment. -/
theorem symbol_deriv_const (self vs : String) :
    (Expr.symbol self).deriv vs = .const (if vs = self then 1 else 0)
    ∧ ∀ E : Inputs, ((Expr.symbol self).deriv vs).eval E
        = .ok (if vs = self then 1 else 0) :=
  ⟨rfl, fun _ => rfl⟩

/-- C7: rendering Sum(L,R) yields exactly "(" ++ render(L) ++ " + " ++
render(R) ++ ")" and Product(L,R) yields exactly "(" ++ render(L) ++ " * " ++
render(R) ++ ")": every composite level is parenthesized. -/
theorem render_composite (l r : Expr) :
    (Expr.dadd l r).render = "(" ++ l.render ++ " + " ++ r.render ++ ")"
    ∧ (Expr.dmul l r).render = "(" ++ l.render ++ " * " ++ r.render ++ ")" :=
  ⟨rfl, rfl⟩

/-- C8: differentiation leaves the source tree unchanged — rendering and
evaluating T after computing differentiate(T, v) gives exactly the results
from before the call — and the derivative is a value of its own, built for
Product from structural copies of the operands (`lhs.clone()` /
`rhs.clone()` in the source), equal to the originals. Memory-level
independence (no aliasing) is enforced in the source by taking `&self` and
cloning, and has no further observable content in a value semantics. -/
theorem deriv_nonmutating (t l r : Expr) (v : String) (E : Inputs) :
    observeAfterDeriv t v E = (t.deriv v, t.render, t.eval E)
    ∧ (Expr.dmul l r).deriv v
        = .dadd (.dmul l (r.deriv v)) (.dmul (l.deriv v) r) :=
  ⟨rfl, rfl⟩

/-- C9: evaluation of Sum and Product is strict in both operands and never
short-circuits: Product(Constant 0, Variable "z") under an environment
lacking "z" fails naming "z" rather than returning 0, and an unbound
variable anywhere in a tree makes evaluation of the whole tree fail with an
unbound name. -/
theorem eval_strict :
    (∀ E : Inputs, E.symbol_map "z" = none →
        (Expr.dmul (.const 0) (.symbol "z")).eval E = .error "z")
    ∧ (∀ (e : Expr) (E : Inputs) (s : String),
        s ∈ e.freeSyms → E.symbol_map s = none →
        ∃ t, e.eval E = .error t ∧ E.symbol_map t = none) := by
  constructor
  · intro E hz
    simp [Expr.eval, hz]
  · exact fun e E s hs hnone => unbound_eval_error e E s hs hnone

/-- Witness for C9 at the empty environment. -/
theorem eval_strict_witness :
    (Expr.dmul (.const 0) (.symbol "z")).eval ⟨fun _ => none⟩ = .error "z" :=
  eval_strict.1 ⟨fun _ => none⟩ rfl

/-- C10: a Constant holding a whole-number value renders with no decimal
point or fractional part: every integer-valued constant renders as the bare
integer, and in particular Constant 1 renders as "1" and Constant 0 as "0". -/
theorem const_render_integral :
    (∀ n : ℤ, (Expr.const (n : ℚ)).render = toString n)
    ∧ (Expr.const 1).render = "1" ∧ (Expr.const 0).render = "0" :=
  ⟨fun n => by simp [Expr.render, fmtVal], rfl, rfl⟩

end GenCalc
